import Mathlib

/-!
# Verification of the biome-eject configuration converter

A shallow embedding of `src/eslint.rs` and `src/main.rs`: the tool walks the
internal linter's rule registry, resolves each enabled rule's effective
severity, maps rules to their external (ESLint) equivalents, and assembles a
configuration module. Types supplied by external crates
(`biome_diagnostics`, `biome_configuration`, `biome_analyze`) are modelled at
their interface; all logic of the two source files is embedded faithfully,
including its treatment of empty member lists and the order in which the
branches of `get_configured_severity` read the configuration sections.
-/

/-- `biome_diagnostics::Severity` (external crate): the internal linter's
five severity levels, in ascending order of severity. -/
inductive Severity where
  | hint
  | information
  | warning
  | error
  | fatal
deriving DecidableEq, Repr

/-- `biome_configuration::analyzer::GroupPlainConfiguration` (external crate):
a group configured as a single uniform value. -/
inductive GroupPlainConfiguration where
  | error
  | warn
  | info
  | on
  | off
deriving DecidableEq, Repr

/-- `biome_configuration::RulePlainConfiguration` (external crate): a single
rule's plain configured value. -/
inductive RulePlainConfiguration where
  | error
  | warn
  | info
  | on
  | off
deriving DecidableEq, Repr

/-- Modelled from the spec: the per-group nested structure supplies,
"per rule, an optional configured severity/override"
(`RuleGroupExt::get_rule_configuration` lives in `biome_configuration`,
outside this repository); modelled as a keyed association list. -/
structure GroupConfiguration where
  ruleConfigs : List (String × RulePlainConfiguration)
deriving DecidableEq, Repr

def GroupConfiguration.get_rule_configuration (g : GroupConfiguration)
    (rule : String) : Option RulePlainConfiguration :=
  (g.ruleConfigs.find? (fun p => p.1 == rule)).map Prod.snd

/-- `biome_configuration::analyzer::SeverityOrGroup` (external crate): a group
section is either a single plain severity or a nested per-rule structure. -/
inductive SeverityOrGroup where
  | plain (c : GroupPlainConfiguration)
  | group (g : GroupConfiguration)
deriving DecidableEq, Repr

/-- `biome_configuration::Rules` (external crate): the linter rules section,
one optional entry per rule group. -/
structure RulesConfiguration where
  a11y : Option SeverityOrGroup
  complexity : Option SeverityOrGroup
  correctness : Option SeverityOrGroup
  nursery : Option SeverityOrGroup
  performance : Option SeverityOrGroup
  security : Option SeverityOrGroup
  style : Option SeverityOrGroup
  suspicious : Option SeverityOrGroup
deriving DecidableEq, Repr

/-- `group_config_to_severity` in `src/eslint.rs`. -/
def group_config_to_severity (plain : GroupPlainConfiguration) : Option Severity :=
  match plain with
  | .error => some .error
  | .warn => some .warning
  | .info => some .information
  | _ => none

/-- `rule_config_to_severity` in `src/eslint.rs`. -/
def rule_config_to_severity (plain : RulePlainConfiguration) : Option Severity :=
  match plain with
  | .error => some .error
  | .warn => some .warning
  | .info => some .information
  | _ => none

/-- `severity_or_group_to_severity` in `src/eslint.rs`. -/
def severity_or_group_to_severity (severity_or_group : SeverityOrGroup)
    (rule : String) : Option Severity :=
  match severity_or_group with
  | .plain plain => group_config_to_severity plain
  | .group group => (group.get_rule_configuration rule).bind rule_config_to_severity

/-- `get_configured_severity` in `src/eslint.rs`. Note that the
`"suspicious"` arm reads `config.performance`, exactly as the source does. -/
def get_configured_severity (config : RulesConfiguration)
    (group rule : String) : Option Severity :=
  match group with
  | "a11y" => config.a11y.bind (fun g => severity_or_group_to_severity g rule)
  | "complexity" => config.complexity.bind (fun g => severity_or_group_to_severity g rule)
  | "correctness" => config.correctness.bind (fun g => severity_or_group_to_severity g rule)
  | "nursery" => config.nursery.bind (fun g => severity_or_group_to_severity g rule)
  | "performance" => config.performance.bind (fun g => severity_or_group_to_severity g rule)
  | "security" => config.security.bind (fun g => severity_or_group_to_severity g rule)
  | "style" => config.style.bind (fun g => severity_or_group_to_severity g rule)
  | "suspicious" => config.performance.bind (fun g => severity_or_group_to_severity g rule)
  | _ => none

/-- `severity_to_eslint_level` in `src/eslint.rs`. -/
def severity_to_eslint_level (severity : Severity) : String :=
  match severity with
  | .error | .fatal => "error"
  | .warning | .information | .hint => "warn"

/-- The variant tags of `biome_analyze::RuleSource` (external crate), one per
external-rule-provider family, in the order of the `From<&RuleSource>` match
arms in `src/eslint.rs`. -/
inductive RuleSourceTag where
  | clippy
  | denoLint
  | eslint
  | eslintBarrelFiles
  | eslintGraphql
  | eslintImport
  | eslintImportAccess
  | eslintJest
  | eslintJsDoc
  | eslintJsxA11y
  | eslintMysticatea
  | eslintN
  | eslintNext
  | eslintNoSecrets
  | eslintPackageJson
  | eslintPackageJsonDependencies
  | eslintPerfectionist
  | eslintQwik
  | eslintReact
  | eslintReactHooks
  | eslintReactPreferFunctionComponent
  | eslintReactRefresh
  | eslintReactX
  | eslintReactXyz
  | eslintRegexp
  | eslintSolid
  | eslintSonarJs
  | eslintStylistic
  | eslintTurbo
  | eslintTypeScript
  | eslintUnicorn
  | eslintUnusedImports
  | eslintVitest
  | eslintVueJs
  | graphqlSchemaLinter
  | stylelint
deriving DecidableEq, Repr

/-- Modelled from the spec: an external-equivalent reference, "each carrying a
provider tag and a namespaced external name" (`biome_analyze::RuleSource` and
its `to_namespaced_rule_name` method live outside this repository). -/
structure RuleSource where
  tag : RuleSourceTag
  namespacedRuleName : String
deriving DecidableEq, Repr

/-- Modelled from the spec: `RuleSource::to_namespaced_rule_name` (external
crate) yields the reference's namespaced external name. -/
def RuleSource.to_namespaced_rule_name (s : RuleSource) : String :=
  s.namespacedRuleName

/-- The element type of `RuleMetadata::sources` (external crate): the walker
reads the `source` field of the first element. -/
structure RuleSourceEntry where
  source : RuleSource
deriving DecidableEq, Repr

/-- `RuleSourceKind` in `src/eslint.rs`: the repository's own enumeration of
provider families, with variants in the source's declaration order (note
`eslintTurbo` is declared last, after `stylelint`). -/
inductive RuleSourceKind where
  | clippy
  | denoLint
  | eslint
  | eslintBarrelFiles
  | eslintGraphql
  | eslintImport
  | eslintImportAccess
  | eslintJest
  | eslintJsDoc
  | eslintJsxA11y
  | eslintMysticatea
  | eslintN
  | eslintNext
  | eslintNoSecrets
  | eslintPackageJson
  | eslintPackageJsonDependencies
  | eslintPerfectionist
  | eslintQwik
  | eslintReact
  | eslintReactHooks
  | eslintReactPreferFunctionComponent
  | eslintReactRefresh
  | eslintReactX
  | eslintReactXyz
  | eslintRegexp
  | eslintSolid
  | eslintSonarJs
  | eslintStylistic
  | eslintTypeScript
  | eslintUnicorn
  | eslintUnusedImports
  | eslintVitest
  | eslintVueJs
  | graphqlSchemaLinter
  | stylelint
  | eslintTurbo
deriving DecidableEq, Repr

/-- The `From<&RuleSource> for RuleSourceKind` impl in `src/eslint.rs`. -/
def RuleSourceKind.fromSource (value : RuleSource) : RuleSourceKind :=
  match value.tag with
  | .clippy => .clippy
  | .denoLint => .denoLint
  | .eslint => .eslint
  | .eslintBarrelFiles => .eslintBarrelFiles
  | .eslintGraphql => .eslintGraphql
  | .eslintImport => .eslintImport
  | .eslintImportAccess => .eslintImportAccess
  | .eslintJest => .eslintJest
  | .eslintJsDoc => .eslintJsDoc
  | .eslintJsxA11y => .eslintJsxA11y
  | .eslintMysticatea => .eslintMysticatea
  | .eslintN => .eslintN
  | .eslintNext => .eslintNext
  | .eslintNoSecrets => .eslintNoSecrets
  | .eslintPackageJson => .eslintPackageJson
  | .eslintPackageJsonDependencies => .eslintPackageJsonDependencies
  | .eslintPerfectionist => .eslintPerfectionist
  | .eslintQwik => .eslintQwik
  | .eslintReact => .eslintReact
  | .eslintReactHooks => .eslintReactHooks
  | .eslintReactPreferFunctionComponent => .eslintReactPreferFunctionComponent
  | .eslintReactRefresh => .eslintReactRefresh
  | .eslintReactX => .eslintReactX
  | .eslintReactXyz => .eslintReactXyz
  | .eslintRegexp => .eslintRegexp
  | .eslintSolid => .eslintSolid
  | .eslintSonarJs => .eslintSonarJs
  | .eslintStylistic => .eslintStylistic
  | .eslintTurbo => .eslintTurbo
  | .eslintTypeScript => .eslintTypeScript
  | .eslintUnicorn => .eslintUnicorn
  | .eslintUnusedImports => .eslintUnusedImports
  | .eslintVitest => .eslintVitest
  | .eslintVueJs => .eslintVueJs
  | .graphqlSchemaLinter => .graphqlSchemaLinter
  | .stylelint => .stylelint

/-- Declaration index of a `RuleSourceKind` variant: the derived Rust `Ord`
on the enum orders variants by declaration position. -/
def RuleSourceKind.idx : RuleSourceKind → Nat
  | .clippy => 0
  | .denoLint => 1
  | .eslint => 2
  | .eslintBarrelFiles => 3
  | .eslintGraphql => 4
  | .eslintImport => 5
  | .eslintImportAccess => 6
  | .eslintJest => 7
  | .eslintJsDoc => 8
  | .eslintJsxA11y => 9
  | .eslintMysticatea => 10
  | .eslintN => 11
  | .eslintNext => 12
  | .eslintNoSecrets => 13
  | .eslintPackageJson => 14
  | .eslintPackageJsonDependencies => 15
  | .eslintPerfectionist => 16
  | .eslintQwik => 17
  | .eslintReact => 18
  | .eslintReactHooks => 19
  | .eslintReactPreferFunctionComponent => 20
  | .eslintReactRefresh => 21
  | .eslintReactX => 22
  | .eslintReactXyz => 23
  | .eslintRegexp => 24
  | .eslintSolid => 25
  | .eslintSonarJs => 26
  | .eslintStylistic => 27
  | .eslintTypeScript => 28
  | .eslintUnicorn => 29
  | .eslintUnusedImports => 30
  | .eslintVitest => 31
  | .eslintVueJs => 32
  | .graphqlSchemaLinter => 33
  | .stylelint => 34
  | .eslintTurbo => 35

/-- `RuleSourceKind::as_namespace` in `src/eslint.rs`. -/
def RuleSourceKind.as_namespace : RuleSourceKind → Option String
  | .eslintBarrelFiles => some "barrel-files"
  | .eslintGraphql => some "@graphql-eslint"
  | .eslintImport => some "import"
  | .eslintImportAccess => some "import-access"
  | .eslintJest => some "jest"
  | .eslintJsDoc => some "jsdoc"
  | .eslintJsxA11y => some "jsx-a11y"
  | .eslintMysticatea => some "@mysticatea"
  | .eslintN => some "n"
  | .eslintNext => some "@next/next"
  | .eslintNoSecrets => some "no-secrets"
  | .eslintPackageJson => some "package-json"
  | .eslintPackageJsonDependencies => some "package-json-dependencies"
  | .eslintPerfectionist => some "perfectionist"
  | .eslintQwik => some "qwik"
  | .eslintReact => some "react"
  | .eslintReactHooks => some "react-hooks"
  | .eslintReactPreferFunctionComponent => some "react-prefer-function-component"
  | .eslintReactRefresh => some "react-refresh"
  | .eslintReactX => some "react-x"
  | .eslintReactXyz => some "@eslint-react"
  | .eslintRegexp => some "regexp"
  | .eslintSolid => some "solid"
  | .eslintSonarJs => some "sonarjs"
  | .eslintStylistic => some "@stylistic"
  | .eslintTurbo => some "turbo"
  | .eslintTypeScript => some "@typescript-eslint"
  | .eslintUnicorn => some "unicorn"
  | .eslintUnusedImports => some "unused-imports"
  | .eslintVitest => some "vitest"
  | .eslintVueJs => some "vue"
  | _ => none

/-- `RuleSourceKind::to_ident` in `src/eslint.rs`: the identifier binding the
imported plugin, known only for the TypeScript provider. -/
def RuleSourceKind.toIdent : RuleSourceKind → Option String
  | .eslintTypeScript => some "tseslint"
  | _ => none

/-- The abstract shape of a `biome_js_syntax::JsImport` as this program
constructs it: either a default-import of `ident` from `modulePath`, or a
named-import of `names` from `modulePath`. -/
inductive JsImport where
  | defaultImport (ident modulePath : String)
  | namedImport (names : List String) (modulePath : String)
deriving DecidableEq, Repr

/-- `RuleSourceKind::to_import` in `src/eslint.rs`: known only for the
TypeScript provider, a default import from `"typescript-eslint"`. -/
def RuleSourceKind.toImport (s : RuleSourceKind) (ident : String) : Option JsImport :=
  match s with
  | .eslintTypeScript => some (.defaultImport ident "typescript-eslint")
  | _ => none

/-- `biome_analyze::RuleMetadata` (external crate), restricted to the two
fields this program reads: the compiled-in default severity and the ordered
list of external-equivalent references. -/
structure RuleMetadata where
  severity : Severity
  sources : List RuleSourceEntry
deriving DecidableEq, Repr

/-- `RuleRegistry` in `src/main.rs`: groups of rules, each group a map from
rule name to metadata (`BTreeMap`s, modelled as association lists in their
iteration order). -/
structure RuleRegistry where
  groups : List (String × List (String × RuleMetadata))
deriving DecidableEq, Repr

/-- `biome_analyze::RuleFilter` (external crate): an element of the
enabled-rule list, either a whole group or a (group, rule) pair. -/
inductive RuleFilter where
  | group (g : String)
  | rule (g r : String)
deriving DecidableEq, Repr

/-- `biome_configuration::Configuration` (external crate), at the interface
this program uses: the linter-enabled flag, the linter rules section, and —
modelled from the spec — the enabled-rule filters that
`Rules::as_enabled_rules` (external to this repository) derives from the
configuration ("a set of (group-name, rule-name) pairs, derived once from the
loaded configuration"). -/
structure Configuration where
  linterEnabled : Bool
  rules : RulesConfiguration
  enabledFilters : List RuleFilter
deriving DecidableEq, Repr

/-- `Configuration::is_linter_enabled` (external crate): reads the flag. -/
def Configuration.is_linter_enabled (c : Configuration) : Bool :=
  c.linterEnabled

/-- `Configuration::get_linter_rules` (external crate): reads the rules
section. -/
def Configuration.get_linter_rules (c : Configuration) : RulesConfiguration :=
  c.rules

/-- Lines 249-256 of `src/eslint.rs`: keep only `RuleFilter::Rule` filters,
collecting the (group, rule) pairs (`BTreeSet` collection, modelled as a list
used solely through membership tests). -/
def enabledRuleSet (filters : List RuleFilter) : List (String × String) :=
  filters.filterMap (fun f =>
    match f with
    | .group _ => none
    | .rule g r => some (g, r))

/-- Lexicographic comparison of character lists by code point: the order in
which Rust's `Ord for String` (and hence `BTreeMap<String, _>`) compares the
ASCII rule names this program handles. -/
def charListLt : List Char → List Char → Bool
  | [], [] => false
  | [], _ :: _ => true
  | _ :: _, [] => false
  | a :: as, b :: bs =>
    if a.toNat < b.toNat then true
    else if b.toNat < a.toNat then false
    else charListLt as bs

/-- Lexicographic string comparison (see `charListLt`). -/
def strLt (a b : String) : Bool := charListLt a.data b.data

/-- `BTreeMap<String, Severity>::insert`, modelled as ordered association-list
insertion: keys stay strictly sorted and an equal key overwrites the value. -/
def insertRule (k : String) (v : Severity) :
    List (String × Severity) → List (String × Severity)
  | [] => [(k, v)]
  | (k', v') :: rest =>
    if strLt k k' then (k, v) :: (k', v') :: rest
    else if k = k' then (k, v) :: rest
    else (k', v') :: insertRule k v rest

/-- `BTreeSet<RuleSourceKind>::insert`, modelled as ordered duplicate-free
list insertion under the enum's declaration order. -/
def insertKind (k : RuleSourceKind) :
    List RuleSourceKind → List RuleSourceKind
  | [] => [k]
  | k' :: rest =>
    if k.idx < k'.idx then k :: k' :: rest
    else if k = k' then k' :: rest
    else k' :: insertKind k rest

/-- The walker's accumulated state: the `sources` set and `rules` map of
`write_eslint_config` (lines 258-259 of `src/eslint.rs`). -/
structure WalkAcc where
  sources : List RuleSourceKind
  rules : List (String × Severity)
deriving DecidableEq, Repr

/-- The per-rule body of the registry walk (lines 269-285 of
`src/eslint.rs`), after the enabled check: resolve the effective severity,
skip the rule if it has no external-equivalent reference, otherwise record
the first reference's provider kind and namespaced name. -/
def processRule (rulesConfig : RulesConfiguration) (group rule : String)
    (metadata : RuleMetadata) (acc : WalkAcc) : WalkAcc :=
  let severity := (get_configured_severity rulesConfig group rule).getD metadata.severity
  match metadata.sources.head? with
  | none => acc
  | some rule_source =>
    let source_kind := RuleSourceKind.fromSource rule_source.source
    let rule_name := rule_source.source.to_namespaced_rule_name
    { sources := insertKind source_kind acc.sources
      rules := insertRule rule_name severity acc.rules }

/-- The inner loop over a group's rules (lines 264-286 of `src/eslint.rs`):
rules not in the enabled set are skipped. -/
def processGroup (rulesConfig : RulesConfiguration)
    (enabled : List (String × String)) (group : String)
    (registry_rules : List (String × RuleMetadata)) (acc : WalkAcc) : WalkAcc :=
  registry_rules.foldl (fun acc r =>
    if enabled.contains (group, r.1) then
      processRule rulesConfig group r.1 r.2 acc
    else acc) acc

/-- The outer loop over registry groups starting from an arbitrary
accumulated state. -/
def walkFold (rulesConfig : RulesConfiguration)
    (enabled : List (String × String))
    (groups : List (String × List (String × RuleMetadata)))
    (acc : WalkAcc) : WalkAcc :=
  groups.foldl (fun acc g => processGroup rulesConfig enabled g.1 g.2 acc) acc

/-- The outer loop over registry groups (lines 261-287 of `src/eslint.rs`),
starting from the empty `sources` set and `rules` map. -/
def walkRegistry (rulesConfig : RulesConfiguration)
    (enabled : List (String × String))
    (groups : List (String × List (String × RuleMetadata))) : WalkAcc :=
  walkFold rulesConfig enabled groups ⟨[], []⟩

/-- The import/plugin accumulation of lines 289-315 of `src/eslint.rs`. -/
structure Wiring where
  imports : List JsImport
  plugins : List (String × String)
deriving DecidableEq, Repr

/-- The body of the loop over the deduplicated source set (lines 292-315 of
`src/eslint.rs`): the built-in `Eslint` provider is skipped, providers
without an identifier are skipped, and for the rest an import together with a
namespace-to-identifier plugin entry is pushed. -/
def wiringStep (w : Wiring) (source : RuleSourceKind) : Wiring :=
  if source = RuleSourceKind.eslint then w
  else
    match source.toIdent with
    | none => w
    | some ident =>
      match source.toImport ident, source.as_namespace with
      | some imp, some ns =>
        { imports := w.imports ++ [imp], plugins := w.plugins ++ [(ns, ident)] }
      | _, _ => w

/-- The loop over the deduplicated source set (lines 292-315 of
`src/eslint.rs`), starting from empty import and plugin vectors. -/
def pluginWiring (sources : List RuleSourceKind) : Wiring :=
  sources.foldl wiringStep ⟨[], []⟩

/-- Rust `usize` subtraction as the separator-count expressions
`0..plugin_count - 1` and `0..rules.len() - 1` evaluate it: in a debug build
the subtraction panics on underflow (modelled as `none`); a release build
wraps to `2^64 - 1`, which likewise never yields an empty member list. -/
def usizeSub (a b : Nat) : Option Nat :=
  if b ≤ a then some (a - b) else none

/-- `make::js_object_expression` over `make::js_object_member_list` as
`write_eslint_config` calls it (lines 319-326 and 329-348 of
`src/eslint.rs`): the separator range `0..len - 1` is constructed eagerly, so
the object literal is only produced when the member count is at least one. -/
def mkObjectExpression (members : List (String × String)) :
    Option (List (String × String)) :=
  (usizeSub members.length 1).map (fun _ => members)

/-- The fixed `import { defineConfig } from "eslint/config";` statement
(lines 350-375 of `src/eslint.rs`). -/
def defineConfigImport : JsImport :=
  .namedImport ["defineConfig"] "eslint/config"

/-- The object passed to `defineConfig` (lines 377-398 of `src/eslint.rs`):
its `plugins` and `rules` members. -/
structure ConfigObject where
  plugins : List (String × String)
  rules : List (String × String)
deriving DecidableEq, Repr

/-- One item of the emitted module: an import statement or the
`export default defineConfig({...})` clause. -/
inductive ModuleItem where
  | imp (i : JsImport)
  | exportDefaultDefineConfig (c : ConfigObject)
deriving DecidableEq, Repr

/-- `write_eslint_config` in `src/eslint.rs`, up to the abstract module: the
walk fills `sources` and `rules`, the wiring loop produces plugin imports and
plugin entries, the two object literals are built (failing on an empty member
list, see `mkObjectExpression`), the `defineConfig` import is appended after
the plugin imports, and the module is the imports followed by the export. -/
def write_eslint_config (registry : RuleRegistry) (config : Configuration) :
    Option (List ModuleItem) :=
  let rules_config := config.get_linter_rules
  let enabled_rules := enabledRuleSet config.enabledFilters
  let acc := walkRegistry rules_config enabled_rules registry.groups
  let wiring := pluginWiring acc.sources
  match mkObjectExpression wiring.plugins with
  | none => none
  | some pluginsObj =>
    match mkObjectExpression
        (acc.rules.map (fun r => (r.1, severity_to_eslint_level r.2))) with
    | none => none
    | some rulesObj =>
      let imports := wiring.imports ++ [defineConfigImport]
      some (imports.map ModuleItem.imp ++
        [ModuleItem.exportDefaultDefineConfig ⟨pluginsObj, rulesObj⟩])

/-- The observable file-writing outcome of `main` in `src/main.rs`. -/
inductive MainEffect where
  | wrote (out : Option (List ModuleItem))
  | noWrite
deriving DecidableEq, Repr

/-- Lines 47-51 of `src/main.rs`: `write_eslint_config` runs only when the
configuration's linter-enabled flag is set; otherwise no file is written and
the program ends successfully. -/
def mainRun (config : Configuration) (registry : RuleRegistry) : MainEffect :=
  if config.is_linter_enabled then .wrote (write_eslint_config registry config)
  else .noWrite

/-- The namespaced names of the first external-equivalent references of the
enabled rules of one group: the names the walker can record for that group. -/
def groupFirstNames (enabled : List (String × String)) (group : String) :
    List (String × RuleMetadata) → List String
  | [] => []
  | r :: rest =>
    if enabled.contains (group, r.1) then
      match r.2.sources.head? with
      | some e => e.source.to_namespaced_rule_name :: groupFirstNames enabled group rest
      | none => groupFirstNames enabled group rest
    else groupFirstNames enabled group rest

/-- The namespaced names of the first external-equivalent references of all
enabled rules of the registry. -/
def firstRuleNames (enabled : List (String × String)) :
    List (String × List (String × RuleMetadata)) → List String
  | [] => []
  | g :: gs => groupFirstNames enabled g.1 g.2 ++ firstRuleNames enabled gs

/-- A rules configuration with no group section present. -/
def emptyRules : RulesConfiguration :=
  ⟨none, none, none, none, none, none, none, none⟩

/-- The spec's concrete scenario (section 8): one rule `style/noVar`, default
severity error, one external-equivalent reference to the generic core
provider with external name `no-var`. -/
def specScenarioRegistry : RuleRegistry :=
  ⟨[("style", [("noVar", ⟨.error, [⟨⟨.eslint, "no-var"⟩⟩]⟩)])]⟩

/-- The spec scenario's configuration: linter enabled, `style.noVar` enabled,
no overrides. -/
def specScenarioConfig : Configuration :=
  ⟨true, emptyRules, [.rule "style" "noVar"]⟩

/-- A scenario with one enabled rule whose first external-equivalent
reference is the TypeScript provider (the one importable provider) and whose
second reference is a core-provider reference that must be ignored. -/
def tsScenarioRegistry : RuleRegistry :=
  ⟨[("suspicious",
      [("noExplicitAny",
        ⟨.warning,
          [⟨⟨.eslintTypeScript, "@typescript-eslint/no-explicit-any"⟩⟩,
           ⟨⟨.eslint, "no-explicit-any-core"⟩⟩]⟩)])]⟩

/-- Configuration enabling `suspicious.noExplicitAny`, no overrides. -/
def tsScenarioConfig : Configuration :=
  ⟨true, emptyRules, [.rule "suspicious" "noExplicitAny"]⟩

/-- The module the pipeline emits for the TypeScript scenario. -/
def tsExpectedItems : List ModuleItem :=
  [.imp (.defaultImport "tseslint" "typescript-eslint"),
   .imp defineConfigImport,
   .exportDefaultDefineConfig
     ⟨[("@typescript-eslint", "tseslint")],
      [("@typescript-eslint/no-explicit-any", "warn")]⟩]

/-- A registry with two enabled rules that share the TypeScript provider,
exercising plugin-import deduplication. -/
def sharedProviderRegistry : RuleRegistry :=
  ⟨[("style",
      [("ruleA", ⟨.error, [⟨⟨.eslintTypeScript, "@typescript-eslint/a"⟩⟩]⟩),
       ("ruleB", ⟨.error, [⟨⟨.eslintTypeScript, "@typescript-eslint/b"⟩⟩]⟩)])]⟩

/-- Configuration enabling both rules of `sharedProviderRegistry`. -/
def sharedProviderConfig : Configuration :=
  ⟨true, emptyRules, [.rule "style" "ruleA", .rule "style" "ruleB"]⟩

/-- A rules configuration in which every group section is present as the
uniform plain severity `error`. -/
def allGroupsError : RulesConfiguration :=
  ⟨some (.plain .error), some (.plain .error), some (.plain .error),
   some (.plain .error), some (.plain .error), some (.plain .error),
   some (.plain .error), some (.plain .error)⟩

/-- `charListLt` is irreflexive. -/
theorem charListLt_irrefl (a : List Char) : charListLt a a = false := by
  induction a with
  | nil => rfl
  | cons x as ih => simp [charListLt, ih]

/-- `charListLt` is transitive. -/
theorem charListLt_trans {a b c : List Char} (h1 : charListLt a b = true)
    (h2 : charListLt b c = true) : charListLt a c = true := by
  induction a generalizing b c with
  | nil =>
    cases b with
    | nil => simp [charListLt] at h1
    | cons y bs =>
      cases c with
      | nil => simp [charListLt] at h2
      | cons z cs => simp [charListLt]
  | cons x as ih =>
    cases b with
    | nil => simp [charListLt] at h1
    | cons y bs =>
      cases c with
      | nil => simp [charListLt] at h2
      | cons z cs =>
        simp only [charListLt] at h1 h2 ⊢
        rcases Nat.lt_trichotomy x.toNat y.toNat with hxy | hxy | hxy
        · rcases Nat.lt_trichotomy y.toNat z.toNat with hyz | hyz | hyz
          · simp [Nat.lt_trans hxy hyz]
          · simp [show x.toNat < z.toNat by omega]
          · rw [if_neg (by omega), if_pos hyz] at h2
            exact absurd h2 (by simp)
        · rcases Nat.lt_trichotomy y.toNat z.toNat with hyz | hyz | hyz
          · simp [show x.toNat < z.toNat by omega]
          · rw [if_neg (by omega), if_neg (by omega)] at h1
            rw [if_neg (by omega), if_neg (by omega)] at h2
            rw [if_neg (by omega), if_neg (by omega)]
            exact ih h1 h2
          · rw [if_neg (by omega), if_pos hyz] at h2
            exact absurd h2 (by simp)
        · rw [if_neg (by omega), if_pos hxy] at h1
          exact absurd h1 (by simp)

/-- `charListLt` is antisymmetric: two lists not below one another are
equal. -/
theorem charListLt_antisymm {a b : List Char} (h1 : charListLt a b = false)
    (h2 : charListLt b a = false) : a = b := by
  induction a generalizing b with
  | nil =>
    cases b with
    | nil => rfl
    | cons y bs => simp [charListLt] at h1
  | cons x as ih =>
    cases b with
    | nil => simp [charListLt] at h2
    | cons y bs =>
      simp only [charListLt] at h1 h2
      rcases Nat.lt_trichotomy x.toNat y.toNat with hxy | hxy | hxy
      · rw [if_pos hxy] at h1
        exact absurd h1 (by simp)
      · rw [if_neg (by omega), if_neg (by omega)] at h1 h2
        have hx : x = y :=
          Char.eq_of_val_eq (UInt32.eq_of_toBitVec_eq (BitVec.eq_of_toNat_eq hxy))
        rw [hx, ih h1 h2]
      · rw [if_pos hxy] at h2
        exact absurd h2 (by simp)

/-- `strLt` is irreflexive. -/
theorem strLt_irrefl (a : String) : strLt a a = false :=
  charListLt_irrefl a.data

/-- `strLt` is transitive. -/
theorem strLt_trans {a b c : String} (h1 : strLt a b = true)
    (h2 : strLt b c = true) : strLt a c = true :=
  charListLt_trans h1 h2

/-- `strLt` is antisymmetric. -/
theorem strLt_antisymm {a b : String} (h1 : strLt a b = false)
    (h2 : strLt b a = false) : a = b := by
  have hd : a.data = b.data := charListLt_antisymm h1 h2
  cases a; cases b; simp_all

/-- Strictly smaller strings are distinct. -/
theorem strLt_ne {a b : String} (h : strLt a b = true) : a ≠ b := by
  intro he
  rw [he, strLt_irrefl] at h
  exact absurd h (by simp)

/-- Totality of `strLt` in the form the ordered-insert proof needs. -/
theorem strLt_of_not_lt_of_ne {a b : String} (h1 : ¬ strLt a b = true)
    (h2 : a ≠ b) : strLt b a = true := by
  by_cases h3 : strLt b a = true
  · exact h3
  · exact absurd (strLt_antisymm (by revert h1; cases strLt a b <;> simp)
      (by revert h3; cases strLt b a <;> simp)) h2

/-- The declaration index identifies the `RuleSourceKind` variant. -/
theorem RuleSourceKind.idx_inj {a b : RuleSourceKind} (h : a.idx = b.idx) :
    a = b := by
  cases a <;> cases b <;> first | rfl | simp [RuleSourceKind.idx] at h

/-- Every element of `insertRule k v l` is the inserted pair or an element
of `l`. -/
theorem insertRule_mem {p : String × Severity} (k : String) (v : Severity)
    (l : List (String × Severity)) (h : p ∈ insertRule k v l) :
    p = (k, v) ∨ p ∈ l := by
  induction l with
  | nil => simpa [insertRule] using h
  | cons q rest ih =>
    obtain ⟨k', v'⟩ := q
    simp only [insertRule] at h
    split at h
    · rcases List.mem_cons.mp h with h' | h'
      · exact Or.inl h'
      · exact Or.inr h'
    · split at h
      · rcases List.mem_cons.mp h with h' | h'
        · exact Or.inl h'
        · exact Or.inr (List.mem_cons_of_mem _ h')
      · rcases List.mem_cons.mp h with h' | h'
        · exact Or.inr (h' ▸ List.mem_cons_self _ _)
        · rcases ih h' with h'' | h''
          · exact Or.inl h''
          · exact Or.inr (List.mem_cons_of_mem _ h'')

/-- The keys after `insertRule` are the inserted key plus the old keys. -/
theorem insertRule_keys (a k : String) (v : Severity)
    (l : List (String × Severity)) :
    a ∈ (insertRule k v l).map Prod.fst ↔ a = k ∨ a ∈ l.map Prod.fst := by
  induction l with
  | nil => simp [insertRule]
  | cons q rest ih =>
    obtain ⟨k', v'⟩ := q
    simp only [insertRule]
    split
    · simp [List.mem_cons]
    · split
      · rename_i hne heq
        subst heq
        simp [List.mem_cons]
      · simp only [List.map_cons, List.mem_cons, ih]
        tauto

/-- `insertRule` preserves strict sortedness of the keys. -/
theorem insertRule_pairwise (k : String) (v : Severity)
    {l : List (String × Severity)}
    (h : l.Pairwise (fun p q => strLt p.1 q.1 = true)) :
    (insertRule k v l).Pairwise (fun p q => strLt p.1 q.1 = true) := by
  induction l with
  | nil => simp [insertRule]
  | cons q rest ih =>
    obtain ⟨k', v'⟩ := q
    rw [List.pairwise_cons] at h
    obtain ⟨hq, hrest⟩ := h
    simp only [insertRule]
    split
    · rename_i hlt
      rw [List.pairwise_cons]
      refine ⟨fun b hb => ?_, by rw [List.pairwise_cons]; exact ⟨hq, hrest⟩⟩
      rcases List.mem_cons.mp hb with rfl | hb'
      · exact hlt
      · exact strLt_trans hlt (hq b hb')
    · split
      · rename_i hnlt heq
        subst heq
        rw [List.pairwise_cons]
        exact ⟨hq, hrest⟩
      · rename_i hnlt hne
        rw [List.pairwise_cons]
        refine ⟨fun b hb => ?_, ih hrest⟩
        rcases insertRule_mem k v rest hb with rfl | hb'
        · exact strLt_of_not_lt_of_ne hnlt hne
        · exact hq b hb'

/-- Membership in `insertKind`. -/
theorem insertKind_mem (a k : RuleSourceKind) (l : List RuleSourceKind) :
    a ∈ insertKind k l ↔ a = k ∨ a ∈ l := by
  induction l with
  | nil => simp [insertKind]
  | cons k' rest ih =>
    simp only [insertKind]
    split
    · simp [List.mem_cons]
    · split
      · rename_i hne heq
        subst heq
        simp [List.mem_cons]
      · simp only [List.mem_cons, ih]
        tauto

/-- `insertKind` preserves strict sortedness by declaration index. -/
theorem insertKind_pairwise (k : RuleSourceKind) {l : List RuleSourceKind}
    (h : l.Pairwise (fun p q => p.idx < q.idx)) :
    (insertKind k l).Pairwise (fun p q => p.idx < q.idx) := by
  induction l with
  | nil => simp [insertKind]
  | cons k' rest ih =>
    rw [List.pairwise_cons] at h
    obtain ⟨hq, hrest⟩ := h
    simp only [insertKind]
    split
    · rename_i hlt
      rw [List.pairwise_cons]
      refine ⟨fun b hb => ?_, by rw [List.pairwise_cons]; exact ⟨hq, hrest⟩⟩
      rcases List.mem_cons.mp hb with rfl | hb'
      · exact hlt
      · exact Nat.lt_trans hlt (hq b hb')
    · split
      · rename_i hnlt heq
        subst heq
        rw [List.pairwise_cons]
        exact ⟨hq, hrest⟩
      · rename_i hnlt hne
        rw [List.pairwise_cons]
        refine ⟨fun b hb => ?_, ih hrest⟩
        rcases (insertKind_mem b k rest).mp hb with rfl | hb'
        · rcases Nat.lt_trichotomy k'.idx b.idx with h' | h' | h'
          · exact h'
          · exact absurd (RuleSourceKind.idx_inj h'.symm) hne
          · exact absurd h' hnlt
        · exact hq b hb'

/-- Key membership after one `processRule` step: the first reference's name
(when the rule has any reference) together with the old keys. -/
theorem processRule_rules_keys (cfg : RulesConfiguration) (g r : String)
    (md : RuleMetadata) (acc : WalkAcc) (a : String) :
    a ∈ (processRule cfg g r md acc).rules.map Prod.fst ↔
      (∃ e rest, md.sources = e :: rest ∧ a = e.source.to_namespaced_rule_name)
        ∨ a ∈ acc.rules.map Prod.fst := by
  cases hs : md.sources with
  | nil => simp [processRule, hs]
  | cons e rest =>
    simp only [processRule, hs, List.head?_cons]
    rw [insertRule_keys]
    constructor
    · rintro (rfl | h)
      · exact Or.inl ⟨e, rest, rfl, rfl⟩
      · exact Or.inr h
    · rintro (⟨e', rest', he, rfl⟩ | h)
      · rw [List.cons.injEq] at he
        exact Or.inl (by rw [he.1])
      · exact Or.inr h

/-- `processRule` preserves sortedness of both accumulators. -/
theorem processRule_pairwise (cfg : RulesConfiguration) (g r : String)
    (md : RuleMetadata) (acc : WalkAcc)
    (h1 : acc.rules.Pairwise (fun p q => strLt p.1 q.1 = true))
    (h2 : acc.sources.Pairwise (fun p q => p.idx < q.idx)) :
    (processRule cfg g r md acc).rules.Pairwise (fun p q => strLt p.1 q.1 = true)
    ∧ (processRule cfg g r md acc).sources.Pairwise (fun p q => p.idx < q.idx) := by
  cases hs : md.sources with
  | nil => simp only [processRule, hs, List.head?_nil]; exact ⟨h1, h2⟩
  | cons e rest =>
    simp only [processRule, hs, List.head?_cons]
    exact ⟨insertRule_pairwise _ _ h1, insertKind_pairwise _ h2⟩

/-- One step of the group loop. -/
theorem processGroup_cons (cfg : RulesConfiguration)
    (en : List (String × String)) (g : String) (r : String × RuleMetadata)
    (rest : List (String × RuleMetadata)) (acc : WalkAcc) :
    processGroup cfg en g (r :: rest) acc =
      processGroup cfg en g rest
        (if en.contains (g, r.1) then processRule cfg g r.1 r.2 acc else acc) := rfl

/-- Key membership after a whole group: the group's first-reference names of
enabled rules together with the old keys. -/
theorem processGroup_rules_keys (cfg : RulesConfiguration)
    (en : List (String × String)) (g : String)
    (rs : List (String × RuleMetadata)) (acc : WalkAcc) (a : String) :
    a ∈ (processGroup cfg en g rs acc).rules.map Prod.fst ↔
      a ∈ groupFirstNames en g rs ∨ a ∈ acc.rules.map Prod.fst := by
  induction rs generalizing acc with
  | nil => simp [processGroup, groupFirstNames]
  | cons r rest ih =>
    rw [processGroup_cons, ih]
    by_cases hc : en.contains (g, r.1)
    · rw [if_pos hc, processRule_rules_keys]
      have hg : groupFirstNames en g (r :: rest) =
          (match r.2.sources.head? with
           | some e => e.source.to_namespaced_rule_name :: groupFirstNames en g rest
           | none => groupFirstNames en g rest) := by
        simp only [groupFirstNames]
        rw [if_pos hc]
      cases hs : r.2.sources with
      | nil =>
        rw [hg]
        simp only [hs, List.head?_nil]
        constructor
        · rintro (h | (⟨e, rest', he, rfl⟩ | h))
          · exact Or.inl h
          · exact absurd he (by simp)
          · exact Or.inr h
        · rintro (h | h)
          · exact Or.inl h
          · exact Or.inr (Or.inr h)
      | cons e rest' =>
        rw [hg]
        simp only [hs, List.head?_cons, List.mem_cons]
        constructor
        · rintro (h | (⟨e', rest'', he, rfl⟩ | h))
          · exact Or.inl (Or.inr h)
          · rw [List.cons.injEq] at he
            exact Or.inl (Or.inl (by rw [he.1]))
          · exact Or.inr h
        · rintro ((rfl | h) | h)
          · exact Or.inr (Or.inl ⟨e, rest', rfl, rfl⟩)
          · exact Or.inl h
          · exact Or.inr (Or.inr h)
    · rw [if_neg hc]
      have hg : groupFirstNames en g (r :: rest) = groupFirstNames en g rest := by
        simp only [groupFirstNames]
        rw [if_neg hc]
      rw [hg]

/-- `processGroup` preserves sortedness of both accumulators. -/
theorem processGroup_pairwise (cfg : RulesConfiguration)
    (en : List (String × String)) (g : String)
    (rs : List (String × RuleMetadata)) (acc : WalkAcc)
    (h1 : acc.rules.Pairwise (fun p q => strLt p.1 q.1 = true))
    (h2 : acc.sources.Pairwise (fun p q => p.idx < q.idx)) :
    (processGroup cfg en g rs acc).rules.Pairwise (fun p q => strLt p.1 q.1 = true)
    ∧ (processGroup cfg en g rs acc).sources.Pairwise (fun p q => p.idx < q.idx) := by
  induction rs generalizing acc with
  | nil => exact ⟨h1, h2⟩
  | cons r rest ih =>
    rw [processGroup_cons]
    by_cases hc : en.contains (g, r.1)
    · rw [if_pos hc]
      obtain ⟨g1, g2⟩ := processRule_pairwise cfg g r.1 r.2 acc h1 h2
      exact ih _ g1 g2
    · rw [if_neg hc]
      exact ih _ h1 h2

/-- One step of the registry loop. -/
theorem walkFold_cons (cfg : RulesConfiguration)
    (en : List (String × String))
    (g : String × List (String × RuleMetadata))
    (gs : List (String × List (String × RuleMetadata))) (acc : WalkAcc) :
    walkFold cfg en (g :: gs) acc =
      walkFold cfg en gs (processGroup cfg en g.1 g.2 acc) := rfl

/-- Key membership after the whole walk from an arbitrary accumulator. -/
theorem walkFold_rules_keys (cfg : RulesConfiguration)
    (en : List (String × String))
    (groups : List (String × List (String × RuleMetadata)))
    (acc : WalkAcc) (a : String) :
    a ∈ (walkFold cfg en groups acc).rules.map Prod.fst ↔
      a ∈ firstRuleNames en groups ∨ a ∈ acc.rules.map Prod.fst := by
  induction groups generalizing acc with
  | nil => simp [walkFold, firstRuleNames]
  | cons g gs ih =>
    rw [walkFold_cons, ih, processGroup_rules_keys]
    simp only [firstRuleNames, List.mem_append]
    tauto

/-- The walk preserves sortedness of both accumulators. -/
theorem walkFold_pairwise (cfg : RulesConfiguration)
    (en : List (String × String))
    (groups : List (String × List (String × RuleMetadata))) (acc : WalkAcc)
    (h1 : acc.rules.Pairwise (fun p q => strLt p.1 q.1 = true))
    (h2 : acc.sources.Pairwise (fun p q => p.idx < q.idx)) :
    (walkFold cfg en groups acc).rules.Pairwise (fun p q => strLt p.1 q.1 = true)
    ∧ (walkFold cfg en groups acc).sources.Pairwise (fun p q => p.idx < q.idx) := by
  induction groups generalizing acc with
  | nil => exact ⟨h1, h2⟩
  | cons g gs ih =>
    rw [walkFold_cons]
    obtain ⟨g1, g2⟩ := processGroup_pairwise cfg en g.1 g.2 acc h1 h2
    exact ih _ g1 g2

/-- The keys of the walker's rule map are exactly the namespaced names of
the first external-equivalent references of the enabled registry rules. -/
theorem walkRegistry_rules_keys (cfg : RulesConfiguration)
    (en : List (String × String))
    (groups : List (String × List (String × RuleMetadata))) (a : String) :
    a ∈ (walkRegistry cfg en groups).rules.map Prod.fst ↔
      a ∈ firstRuleNames en groups := by
  rw [walkRegistry, walkFold_rules_keys]
  simp

/-- An enabled rule with a first reference contributes its name to the
group's first-name list. -/
theorem groupFirstNames_mem_of (en : List (String × String)) (g : String)
    {rs : List (String × RuleMetadata)} {rule : String} {md : RuleMetadata}
    {e : RuleSourceEntry} {rest : List RuleSourceEntry}
    (h2 : (rule, md) ∈ rs) (h3 : en.contains (g, rule) = true)
    (h4 : md.sources = e :: rest) :
    e.source.to_namespaced_rule_name ∈ groupFirstNames en g rs := by
  induction rs with
  | nil => cases h2
  | cons r rs ih =>
    rcases List.mem_cons.mp h2 with rfl | h2'
    · simp only [groupFirstNames]
      rw [if_pos h3, h4]
      simp
    · have hmem := ih h2'
      simp only [groupFirstNames]
      by_cases hc : en.contains (g, r.1) = true
      · rw [if_pos hc]
        cases hr : r.2.sources.head? with
        | none => exact hmem
        | some e' => exact List.mem_cons_of_mem _ hmem
      · rw [if_neg hc]
        exact hmem

/-- A name contributed by a member group is in the registry-wide list. -/
theorem firstRuleNames_mem_of (en : List (String × String))
    {groups : List (String × List (String × RuleMetadata))}
    {g : String} {grules : List (String × RuleMetadata)} {x : String}
    (h1 : (g, grules) ∈ groups) (hmem : x ∈ groupFirstNames en g grules) :
    x ∈ firstRuleNames en groups := by
  induction groups with
  | nil => cases h1
  | cons p gs ih =>
    rcases List.mem_cons.mp h1 with rfl | h1'
    · simp only [firstRuleNames]
      exact List.mem_append_left _ hmem
    · simp only [firstRuleNames]
      exact List.mem_append_right _ (ih h1')

/-- The imports collected by the wiring loop over any source list: one
default-import of `tseslint` per occurrence of the TypeScript provider, and
nothing else. -/
theorem wiringFold_imports (l : List RuleSourceKind) (w : Wiring) :
    (l.foldl wiringStep w).imports =
      w.imports ++ (l.filter (fun s => s == RuleSourceKind.eslintTypeScript)).map
        (fun _ => JsImport.defaultImport "tseslint" "typescript-eslint") := by
  induction l generalizing w with
  | nil => simp
  | cons s rest ih =>
    rw [List.foldl_cons, ih, List.filter_cons]
    cases s <;> simp [wiringStep, RuleSourceKind.toIdent, RuleSourceKind.toImport,
      RuleSourceKind.as_namespace]

/-- Filtering a duplicate-free list for one element yields at most that
element. -/
theorem nodup_filter_beq {α : Type} [DecidableEq α] (x : α) {l : List α}
    (h : l.Nodup) :
    l.filter (fun s => s == x) = if x ∈ l then [x] else [] := by
  induction l with
  | nil => simp
  | cons a rest ih =>
    rw [List.nodup_cons] at h
    rw [List.filter_cons]
    by_cases hax : a = x
    · subst hax
      rw [if_pos (by simp), ih h.2, if_neg h.1, if_pos (List.mem_cons_self a rest)]
    · rw [if_neg (by simp [hax]), ih h.2]
      by_cases hx : x ∈ rest
      · rw [if_pos hx, if_pos (List.mem_cons_of_mem _ hx)]
      · rw [if_neg hx, if_neg (by simp [hx, Ne.symm hax])]

/-- On a duplicate-free source set, the wiring loop emits exactly one
`tseslint` import when the TypeScript provider contributed, and none
otherwise. -/
theorem pluginWiring_imports (l : List RuleSourceKind) (h : l.Nodup) :
    (pluginWiring l).imports =
      if RuleSourceKind.eslintTypeScript ∈ l
      then [JsImport.defaultImport "tseslint" "typescript-eslint"] else [] := by
  unfold pluginWiring
  rw [wiringFold_imports, nodup_filter_beq _ h]
  by_cases hm : RuleSourceKind.eslintTypeScript ∈ l
  · rw [if_pos hm, if_pos hm]
    simp
  · rw [if_neg hm, if_neg hm]
    simp

/-- The walker's source set is duplicate-free. -/
theorem walkRegistry_sources_nodup (cfg : RulesConfiguration)
    (en : List (String × String))
    (groups : List (String × List (String × RuleMetadata))) :
    (walkRegistry cfg en groups).sources.Nodup := by
  have h := (walkFold_pairwise cfg en groups ⟨[], []⟩ (by simp) (by simp)).2
  exact h.imp (fun hlt => fun heq => absurd (heq ▸ hlt) (Nat.lt_irrefl _))

/-- If an object member list is built at all, it is built from exactly the
given members. -/
theorem mkObjectExpression_some {members x : List (String × String)}
    (h : mkObjectExpression members = some x) : x = members := by
  unfold mkObjectExpression usizeSub at h
  split at h
  · simp only [Option.map_some'] at h
    exact ((Option.some.injEq _ _).mp h).symm
  · exact Option.noConfusion h

/-- Shape of every successfully emitted module: plugin imports, then the
`defineConfig` import, then the export wrapping the plugin and rule
objects. -/
theorem write_eslint_config_shape (registry : RuleRegistry)
    (config : Configuration) (items : List ModuleItem)
    (h : write_eslint_config registry config = some items) :
    items =
      (pluginWiring (walkRegistry config.get_linter_rules
          (enabledRuleSet config.enabledFilters) registry.groups).sources).imports.map
        ModuleItem.imp
      ++ [ModuleItem.imp defineConfigImport,
          ModuleItem.exportDefaultDefineConfig
            ⟨(pluginWiring (walkRegistry config.get_linter_rules
                (enabledRuleSet config.enabledFilters) registry.groups).sources).plugins,
             (walkRegistry config.get_linter_rules
                (enabledRuleSet config.enabledFilters) registry.groups).rules.map
               (fun r => (r.1, severity_to_eslint_level r.2))⟩] := by
  simp only [write_eslint_config] at h
  split at h
  · exact absurd h (by simp)
  · rename_i pluginsObj hp
    split at h
    · exact absurd h (by simp)
    · rename_i rulesObj hr
      have hp' := mkObjectExpression_some hp
      have hr' := mkObjectExpression_some hr
      subst hp'
      subst hr'
      rw [Option.some.injEq] at h
      rw [← h]
      simp

/-- C1: the claim states that the configured-severity lookup for each group
consults that same group's configuration section. The code violates this for
the `"suspicious"` group, whose branch reads `config.performance`: a
configuration whose `suspicious` section is the group-wide severity `error`
(and whose `performance` section is absent) yields no configured severity,
while a `performance` section alone does configure `suspicious` rules. The
last conjunct shows the `performance` group itself behaving as specified. -/
theorem suspicious_lookup_reads_performance_section :
    get_configured_severity
        ⟨none, none, none, none, none, none, none, some (.plain .error)⟩
        "suspicious" "noExplicitAny" = none
    ∧ get_configured_severity
        ⟨none, none, none, none, some (.plain .warn), none, none, none⟩
        "suspicious" "noExplicitAny" = some .warning
    ∧ get_configured_severity
        ⟨none, none, none, none, some (.plain .warn), none, none, none⟩
        "performance" "noAccumulatingSpread" = some .warning :=
  ⟨rfl, rfl, rfl⟩

/-- C2: the claim states that empty plugin or rule sets still yield empty
object literals and a valid output file. The code instead evaluates
`plugin_count - 1` (respectively `rules.len() - 1`) in `usize`, which
underflows when the count is zero, so the run fails: on the spec's own
concrete scenario (one core-provider rule, hence zero plugins) and on an
empty registry no module is produced. -/
theorem empty_member_lists_fail :
    write_eslint_config specScenarioRegistry specScenarioConfig = none
    ∧ write_eslint_config ⟨[]⟩ ⟨true, emptyRules, []⟩ = none
    ∧ mkObjectExpression [] = none :=
  ⟨by decide, by decide, rfl⟩

/-- C3 (counterexample): the claim states the `defineConfig` import comes
first, followed by the plugin imports. In the emitted module for a scenario
with one TypeScript-provider rule, the first item is the `tseslint` plugin
import, not the `defineConfig` import, which comes second. -/
theorem defineConfig_import_not_first :
    write_eslint_config tsScenarioRegistry tsScenarioConfig = some tsExpectedItems
    ∧ tsExpectedItems.head? =
        some (ModuleItem.imp (JsImport.defaultImport "tseslint" "typescript-eslint"))
    ∧ JsImport.defaultImport "tseslint" "typescript-eslint" ≠ defineConfigImport :=
  ⟨by decide, rfl, by decide⟩

/-- C3 (amended): in the emitted module, the per-provider plugin imports come
first, in the deterministic provider order, followed by the fixed import of
the config-definition helper (`defineConfig`), then the export. -/
theorem plugin_imports_precede_defineConfig_import (registry : RuleRegistry)
    (config : Configuration) (items : List ModuleItem)
    (h : write_eslint_config registry config = some items) :
    ∃ cfgObj : ConfigObject,
      items =
        (pluginWiring (walkRegistry config.get_linter_rules
            (enabledRuleSet config.enabledFilters) registry.groups).sources).imports.map
          ModuleItem.imp
        ++ [ModuleItem.imp defineConfigImport,
            ModuleItem.exportDefaultDefineConfig cfgObj] :=
  ⟨_, write_eslint_config_shape registry config items h⟩

/-- C3 (witness): the amended order theorem applied to the TypeScript
scenario. -/
theorem plugin_imports_precede_defineConfig_witness :
    write_eslint_config tsScenarioRegistry tsScenarioConfig = some tsExpectedItems
    ∧ ∃ cfgObj : ConfigObject,
        tsExpectedItems =
          (pluginWiring (walkRegistry tsScenarioConfig.get_linter_rules
              (enabledRuleSet tsScenarioConfig.enabledFilters)
              tsScenarioRegistry.groups).sources).imports.map ModuleItem.imp
          ++ [ModuleItem.imp defineConfigImport,
              ModuleItem.exportDefaultDefineConfig cfgObj] :=
  ⟨by decide,
   plugin_imports_precede_defineConfig_import tsScenarioRegistry tsScenarioConfig
     tsExpectedItems (by decide)⟩

/-- C4: the translation to the external two-level vocabulary maps `error`
and `fatal` to `"error"` and every other level (`warning`, `information`,
`hint`) to `"warn"`. -/
theorem severity_to_eslint_level_cases :
    severity_to_eslint_level .error = "error"
    ∧ severity_to_eslint_level .fatal = "error"
    ∧ severity_to_eslint_level .warning = "warn"
    ∧ severity_to_eslint_level .information = "warn"
    ∧ severity_to_eslint_level .hint = "warn" :=
  ⟨rfl, rfl, rfl, rfl, rfl⟩

/-- C5: every enabled registry rule with at least one external-equivalent
reference puts the namespaced name of its first reference into the resolved
rule map, and every key of that map is the first-reference name of some
enabled rule, so references after the first never contribute an entry. -/
theorem first_reference_contributes_rule_key (registry : RuleRegistry)
    (config : Configuration) (group : String)
    (grules : List (String × RuleMetadata)) (rule : String) (md : RuleMetadata)
    (e : RuleSourceEntry) (rest : List RuleSourceEntry)
    (h1 : (group, grules) ∈ registry.groups) (h2 : (rule, md) ∈ grules)
    (h3 : (enabledRuleSet config.enabledFilters).contains (group, rule) = true)
    (h4 : md.sources = e :: rest) :
    e.source.to_namespaced_rule_name ∈
      (walkRegistry config.get_linter_rules (enabledRuleSet config.enabledFilters)
        registry.groups).rules.map Prod.fst
    ∧ ∀ a ∈ (walkRegistry config.get_linter_rules
        (enabledRuleSet config.enabledFilters) registry.groups).rules.map Prod.fst,
        a ∈ firstRuleNames (enabledRuleSet config.enabledFilters) registry.groups := by
  constructor
  · rw [walkRegistry_rules_keys]
    exact firstRuleNames_mem_of _ h1 (groupFirstNames_mem_of _ _ h2 h3 h4)
  · intro a ha
    exact (walkRegistry_rules_keys _ _ _ a).mp ha

/-- C5 (witness): in the TypeScript scenario the key is the first
reference's name, although the rule carries a second reference. -/
theorem first_reference_witness :
    (("suspicious",
        [("noExplicitAny",
          (⟨Severity.warning,
            [⟨⟨RuleSourceTag.eslintTypeScript, "@typescript-eslint/no-explicit-any"⟩⟩,
             ⟨⟨RuleSourceTag.eslint, "no-explicit-any-core"⟩⟩]⟩ : RuleMetadata))])
      ∈ tsScenarioRegistry.groups)
    ∧ "@typescript-eslint/no-explicit-any" ∈
        (walkRegistry tsScenarioConfig.get_linter_rules
          (enabledRuleSet tsScenarioConfig.enabledFilters)
          tsScenarioRegistry.groups).rules.map Prod.fst :=
  ⟨by decide,
   (first_reference_contributes_rule_key tsScenarioRegistry tsScenarioConfig
     "suspicious"
     [("noExplicitAny",
       ⟨Severity.warning,
        [⟨⟨RuleSourceTag.eslintTypeScript, "@typescript-eslint/no-explicit-any"⟩⟩,
         ⟨⟨RuleSourceTag.eslint, "no-explicit-any-core"⟩⟩]⟩)]
     "noExplicitAny"
     ⟨Severity.warning,
      [⟨⟨RuleSourceTag.eslintTypeScript, "@typescript-eslint/no-explicit-any"⟩⟩,
       ⟨⟨RuleSourceTag.eslint, "no-explicit-any-core"⟩⟩]⟩
     ⟨⟨RuleSourceTag.eslintTypeScript, "@typescript-eslint/no-explicit-any"⟩⟩
     [⟨⟨RuleSourceTag.eslint, "no-explicit-any-core"⟩⟩]
     (by decide) (by decide) (by decide) rfl).1⟩

/-- C6: an enabled rule with no external-equivalent reference is skipped:
the walker's per-rule step leaves the accumulated state untouched (and is a
total function, so no failure occurs on this path). -/
theorem unmapped_rule_skipped (cfg : RulesConfiguration) (group rule : String)
    (md : RuleMetadata) (acc : WalkAcc) (h : md.sources = []) :
    processRule cfg group rule md acc = acc := by
  simp [processRule, h]

/-- C6 (witness): a concrete reference-free rule leaves the accumulator
unchanged. -/
theorem unmapped_rule_witness :
    (RuleMetadata.mk .error []).sources = []
    ∧ processRule emptyRules "style" "useConst" ⟨.error, []⟩ ⟨[], []⟩ = ⟨[], []⟩ :=
  ⟨rfl, unmapped_rule_skipped emptyRules "style" "useConst" ⟨.error, []⟩ ⟨[], []⟩ rfl⟩

/-- C7: the emitted plugin imports (the `defineConfig` import aside) are
exactly one import for the TypeScript provider when it contributed — the
only provider with a known binding — and nothing else, with no duplicates
however many rules share a provider; the core provider and unwired
providers get no import, while every enabled rule with a first reference
(whatever its provider) keeps its key in the rule map. -/
theorem plugin_import_minimality (registry : RuleRegistry)
    (config : Configuration) :
    ((pluginWiring (walkRegistry config.get_linter_rules
        (enabledRuleSet config.enabledFilters) registry.groups).sources).imports =
      if RuleSourceKind.eslintTypeScript ∈
          (walkRegistry config.get_linter_rules (enabledRuleSet config.enabledFilters)
            registry.groups).sources
      then [JsImport.defaultImport "tseslint" "typescript-eslint"] else [])
    ∧ (pluginWiring (walkRegistry config.get_linter_rules
        (enabledRuleSet config.enabledFilters) registry.groups).sources).imports.Nodup
    ∧ ∀ (group : String) (grules : List (String × RuleMetadata)) (rule : String)
        (md : RuleMetadata) (e : RuleSourceEntry) (rest : List RuleSourceEntry),
        (group, grules) ∈ registry.groups → (rule, md) ∈ grules →
        (enabledRuleSet config.enabledFilters).contains (group, rule) = true →
        md.sources = e :: rest →
        e.source.to_namespaced_rule_name ∈
          (walkRegistry config.get_linter_rules (enabledRuleSet config.enabledFilters)
            registry.groups).rules.map Prod.fst := by
  have hnd := walkRegistry_sources_nodup config.get_linter_rules
    (enabledRuleSet config.enabledFilters) registry.groups
  refine ⟨pluginWiring_imports _ hnd, ?_, ?_⟩
  · rw [pluginWiring_imports _ hnd]
    split
    · exact List.nodup_singleton _
    · exact List.nodup_nil
  · intro group grules rule md e rest h1 h2 h3 h4
    rw [walkRegistry_rules_keys]
    exact firstRuleNames_mem_of _ h1 (groupFirstNames_mem_of _ _ h2 h3 h4)

/-- C7 (witness): two rules sharing the TypeScript provider yield a single
import, and the core-provider rule of the spec scenario keeps its key in the
rule map although no import is emitted for it. -/
theorem plugin_import_minimality_witness :
    (pluginWiring (walkRegistry sharedProviderConfig.get_linter_rules
        (enabledRuleSet sharedProviderConfig.enabledFilters)
        sharedProviderRegistry.groups).sources).imports =
      [JsImport.defaultImport "tseslint" "typescript-eslint"]
    ∧ "no-var" ∈ (walkRegistry specScenarioConfig.get_linter_rules
        (enabledRuleSet specScenarioConfig.enabledFilters)
        specScenarioRegistry.groups).rules.map Prod.fst := by
  constructor
  · rw [(plugin_import_minimality sharedProviderRegistry sharedProviderConfig).1,
      if_pos (by decide)]
  · exact (plugin_import_minimality specScenarioRegistry specScenarioConfig).2.2
      "style" [("noVar", ⟨.error, [⟨⟨.eslint, "no-var"⟩⟩]⟩)] "noVar"
      ⟨.error, [⟨⟨.eslint, "no-var"⟩⟩]⟩ ⟨⟨.eslint, "no-var"⟩⟩ []
      (by decide) (by decide) (by decide) rfl

/-- C8: the embedded pipeline is a pure function of the registry and the
configuration, so two runs on the same inputs give the same module; the
provider set is iterated in the enumeration's declaration order, the rule
map in lexicographic key order, and every emitted module lists its rule
entries in that sorted order. -/
theorem pipeline_deterministic_and_sorted (registry : RuleRegistry)
    (config : Configuration) :
    write_eslint_config registry config = write_eslint_config registry config
    ∧ (walkRegistry config.get_linter_rules (enabledRuleSet config.enabledFilters)
        registry.groups).sources.Pairwise (fun p q => p.idx < q.idx)
    ∧ (walkRegistry config.get_linter_rules (enabledRuleSet config.enabledFilters)
        registry.groups).rules.Pairwise (fun p q => strLt p.1 q.1 = true)
    ∧ ∀ items : List ModuleItem, write_eslint_config registry config = some items →
        ∃ pluginsObj rulesObj : List (String × String),
          items = (pluginWiring (walkRegistry config.get_linter_rules
              (enabledRuleSet config.enabledFilters) registry.groups).sources).imports.map
            ModuleItem.imp
            ++ [ModuleItem.imp defineConfigImport,
                ModuleItem.exportDefaultDefineConfig ⟨pluginsObj, rulesObj⟩]
          ∧ rulesObj.Pairwise (fun p q => strLt p.1 q.1 = true) := by
  obtain ⟨hr, hs⟩ := walkFold_pairwise config.get_linter_rules
    (enabledRuleSet config.enabledFilters) registry.groups ⟨[], []⟩ (by simp) (by simp)
  refine ⟨rfl, hs, hr, ?_⟩
  intro items h
  refine ⟨_, _, write_eslint_config_shape registry config items h, ?_⟩
  exact hr.map (fun (r : String × Severity) => (r.1, severity_to_eslint_level r.2))
    (fun _ _ hab => hab)

/-- C8 (witness): the shape-and-sortedness conjunct applied to the
TypeScript scenario. -/
theorem pipeline_deterministic_witness :
    write_eslint_config tsScenarioRegistry tsScenarioConfig = some tsExpectedItems
    ∧ ∃ pluginsObj rulesObj : List (String × String),
        tsExpectedItems = (pluginWiring (walkRegistry tsScenarioConfig.get_linter_rules
            (enabledRuleSet tsScenarioConfig.enabledFilters)
            tsScenarioRegistry.groups).sources).imports.map ModuleItem.imp
          ++ [ModuleItem.imp defineConfigImport,
              ModuleItem.exportDefaultDefineConfig ⟨pluginsObj, rulesObj⟩]
        ∧ rulesObj.Pairwise (fun p q => strLt p.1 q.1 = true) :=
  ⟨by decide,
   (pipeline_deterministic_and_sorted tsScenarioRegistry tsScenarioConfig).2.2.2
     tsExpectedItems (by decide)⟩

/-- C9: for any group name other than the eight recognized ones the lookup
returns no configured severity, so the compiled-in default always applies,
whatever the configuration contains. -/
theorem unknown_group_gets_default (config : RulesConfiguration)
    (group rule : String) (defaultSeverity : Severity)
    (h : group ∉ (["a11y", "complexity", "correctness", "nursery", "performance",
        "security", "style", "suspicious"] : List String)) :
    get_configured_severity config group rule = none
    ∧ (get_configured_severity config group rule).getD defaultSeverity
        = defaultSeverity := by
  have hn : get_configured_severity config group rule = none := by
    simp only [List.mem_cons, not_or] at h
    obtain ⟨h1, h2, h3, h4, h5, h6, h7, h8, -⟩ := h
    unfold get_configured_severity
    split <;> simp_all
  exact ⟨hn, by rw [hn]; rfl⟩

/-- C9 (witness): the unrecognized group name `formatting` receives the
default severity even under a configuration with every section present. -/
theorem unknown_group_witness :
    ("formatting" ∉ (["a11y", "complexity", "correctness", "nursery", "performance",
        "security", "style", "suspicious"] : List String))
    ∧ get_configured_severity allGroupsError "formatting" "useIgnoreFile" = none
    ∧ (get_configured_severity allGroupsError "formatting" "useIgnoreFile").getD
        .warning = .warning :=
  ⟨by decide,
   (unknown_group_gets_default allGroupsError "formatting" "useIgnoreFile" .warning
     (by decide)).1,
   (unknown_group_gets_default allGroupsError "formatting" "useIgnoreFile" .warning
     (by decide)).2⟩

/-- C10: with the linter-enabled flag false, `main` performs no write at all
(and so leaves any pre-existing output file untouched) and ends
successfully. -/
theorem linter_disabled_writes_nothing (config : Configuration)
    (registry : RuleRegistry) (h : config.linterEnabled = false) :
    mainRun config registry = MainEffect.noWrite := by
  simp [mainRun, Configuration.is_linter_enabled, h]

/-- C10 (witness): a concrete disabled configuration writes nothing. -/
theorem linter_disabled_witness :
    (Configuration.mk false emptyRules [RuleFilter.rule "style" "noVar"]).linterEnabled
        = false
    ∧ mainRun ⟨false, emptyRules, [RuleFilter.rule "style" "noVar"]⟩
        specScenarioRegistry = MainEffect.noWrite :=
  ⟨rfl, linter_disabled_writes_nothing _ _ rfl⟩
